import Mathlib

/-!
Shallow embedding of the shrinkmap library (package shrinkmap): a generic
map with automatic shrinking.  The embedding follows the richest revision of
the source: ShrinkableMap with atomic counters, a stopped flag and structured
errors, plus the batch and iterator files.  Machine integers (int, int64) are
modelled as Int, time instants and durations (time.Time, time.Duration) as
integer nanosecond counts, and the float64 ratio/factor fields as exact
rationals.  Sequential executions are modelled by explicit state passing; the
single-flight flag and the stopped flag are ordinary state fields.
-/

set_option maxHeartbeats 1000000
set_option linter.unusedSectionVars false

namespace ShrinkMap

/-- Configuration options for ShrinkableMap (Config of the source). -/
structure Config where
  shrinkInterval : Int
  shrinkRatio : ℚ
  initialCapacity : Int
  autoShrinkEnabled : Bool
  minShrinkInterval : Int
  maxMapSize : Int
  capacityGrowthFactor : ℚ
deriving DecidableEq

/-- Structured error results (ShrinkMapError error codes of the source); the
capacityExceeded constructor carries the currentSize and maxSize details that
the source attaches via WithDetails. -/
inductive SMErr where
  | invalidConfig
  | mapStopped
  | shrinkFailed
  | batchFailed
  | capacityExceeded (currentSize maxSize : Int)
deriving DecidableEq

/-- State of a ShrinkableMap instance: the backing Go map is modelled as an
association list with pairwise distinct keys, together with the two atomic
counters, the last-shrink timestamp, the single-flight shrinking flag and the
stopped flag.  The per-instance config is a state field as in the source. -/
structure SMap (K V : Type) where
  data : List (K × V)
  itemCount : Int
  deletedCount : Int
  lastShrinkTime : Int
  shrinking : Bool
  stopped : Bool
  cfg : Config
deriving DecidableEq

variable {K V : Type} [DecidableEq K]

/-- Lookup in the association-list model of a Go map. -/
def mapFind : List (K × V) → K → Option V
  | [], _ => none
  | (a, b) :: rest, key => if a = key then some b else mapFind rest key

/-- Insert/overwrite in the association-list model of a Go map. -/
def mapInsert : List (K × V) → K → V → List (K × V)
  | [], key, value => [(key, value)]
  | (a, b) :: rest, key, value =>
      if a = key then (key, value) :: rest else (a, b) :: mapInsert rest key value

/-- Removal in the association-list model of a Go map. -/
def mapErase : List (K × V) → K → List (K × V)
  | [], _ => []
  | (a, b) :: rest, key => if a = key then mapErase rest key else (a, b) :: mapErase rest key

/-- Key list of the association-list model. -/
def keys (l : List (K × V)) : List K := l.map Prod.fst

/-- New creates a ShrinkableMap: empty table, zeroed counters, lastShrinkTime
stored at construction time, flags clear. -/
def new (cfg : Config) (now : Int) : SMap K V :=
  { data := [], itemCount := 0, deletedCount := 0, lastShrinkTime := now,
    shrinking := false, stopped := false, cfg := cfg }

/-- Stop sets the stopped flag (the context cancellation only affects the
background goroutine, which holds no extra map state). -/
def stop (s : SMap K V) : SMap K V := { s with stopped := true }

/-- Snapshot copies all entries into an independent sequence. -/
def snapshot (s : SMap K V) : List (K × V) := s.data

/-- Get retrieves the value associated with the given key. -/
def get (s : SMap K V) (key : K) : Option V := mapFind s.data key

/-- Contains checks if the key exists in the map. -/
def contains (s : SMap K V) (key : K) : Bool := (mapFind s.data key).isSome

/-- Existence check used inside Set (keyExists of the source). -/
def keyExists (s : SMap K V) (key : K) : Bool := (mapFind s.data key).isSome

/-- Len returns itemCount - deletedCount. -/
def len (s : SMap K V) : Int := s.itemCount - s.deletedCount

/-- Decision function shouldShrink: false when itemCount is zero, otherwise
true iff deletedCount / itemCount meets ShrinkRatio and the time elapsed since
lastShrinkTime is at least MinShrinkInterval. -/
def shouldShrink (s : SMap K V) (now : Int) : Bool :=
  if s.itemCount = 0 then false
  else
    decide (s.cfg.shrinkRatio ≤ (s.deletedCount : ℚ) / (s.itemCount : ℚ)) &&
    decide (s.cfg.minShrinkInterval ≤ now - s.lastShrinkTime)

/-- Conversion int(x) of a float64 to a Go int truncates toward zero. -/
def goTrunc (q : ℚ) : Int := if 0 ≤ q then ⌊q⌋ else -⌊-q⌋

/-- Size computation of shrink: newSize := int(float64(currentLen) *
CapacityGrowthFactor), floored at InitialCapacity. -/
def shrinkNewSize (currentLen : Int) (cfg : Config) : Int :=
  let n := goTrunc ((currentLen : ℚ) * cfg.capacityGrowthFactor)
  if n < cfg.initialCapacity then cfg.initialCapacity else n

/-- Result of shrink: whether a rebuild occurred, the capacity passed to make
for the new table when one did, and the state afterwards. -/
structure ShrinkResult (K V : Type) where
  didShrink : Bool
  newSize : Option Int
  state : SMap K V

/-- Rebuild routine shrink: return false while another shrink holds the
single-flight flag or when Len() is zero (the flag acquire/release of the
source cancel out on those paths); otherwise copy every entry of the old
table into a table of the computed capacity (the same finite map, so the
association list is kept), store the new count, reset deletedCount and record
lastShrinkTime. -/
def shrink (s : SMap K V) (now : Int) : ShrinkResult K V :=
  if s.shrinking = true then ⟨false, none, s⟩
  else if len s = 0 then ⟨false, none, s⟩
  else
    ⟨true, some (shrinkNewSize (len s) s.cfg),
      { s with itemCount := (s.data.length : Int), deletedCount := 0, lastShrinkTime := now }⟩

/-- TryShrink shrinks only when shouldShrink holds. -/
def tryShrink (s : SMap K V) (now : Int) : ShrinkResult K V :=
  if shouldShrink s now = true then shrink s now else ⟨false, none, s⟩

/-- ForceShrink calls shrink unconditionally. -/
def forceShrink (s : SMap K V) (now : Int) : ShrinkResult K V := shrink s now

/-- Result of Set: the returned error, whether a background TryShrink
goroutine was launched (go sm.TryShrink(), asynchronous in the source, hence
recorded as a flag rather than executed), and the state afterwards. -/
structure SetResult (K V : Type) where
  err : Option SMErr
  needsShrink : Bool
  state : SMap K V

/-- Set: fail with mapStopped when stopped; fail with capacityExceeded when a
hard cap is set, the key is new and itemCount already reached the cap;
otherwise insert, bumping itemCount for a new key, and report whether the
post-insert itemCount reached the cap. -/
def set (s : SMap K V) (key : K) (value : V) : SetResult K V :=
  if s.stopped = true then ⟨some SMErr.mapStopped, false, s⟩
  else if 0 < s.cfg.maxMapSize ∧ keyExists s key = false ∧ s.cfg.maxMapSize ≤ s.itemCount then
    ⟨some (SMErr.capacityExceeded s.itemCount s.cfg.maxMapSize), false, s⟩
  else
    let ex := (mapFind s.data key).isSome
    let s1 : SMap K V :=
      { s with data := mapInsert s.data key value,
               itemCount := if ex = true then s.itemCount else s.itemCount + 1 }
    ⟨none, decide (0 < s1.cfg.maxMapSize ∧ s1.cfg.maxMapSize ≤ s1.itemCount), s1⟩

/-- Result of Delete: the found flag, whether the synchronous TryShrink path
ran, and the state afterwards. -/
structure DelResult (K V : Type) where
  found : Bool
  attemptedShrink : Bool
  state : SMap K V

/-- Delete: remove the key if present and bump deletedCount, then, when the
key existed and auto-shrink is enabled, synchronously attempt TryShrink. -/
def delete (s : SMap K V) (key : K) (now : Int) : DelResult K V :=
  if (mapFind s.data key).isSome = true then
    let s1 : SMap K V :=
      { s with data := mapErase s.data key, deletedCount := s.deletedCount + 1 }
    if s.cfg.autoShrinkEnabled = true then ⟨true, true, (tryShrink s1 now).state⟩
    else ⟨true, false, s1⟩
  else ⟨false, false, s⟩

/-- SetIf: the condition receives the existing value when present (the Go
zero-value/ok pair is modelled as an Option); capacity is checked only when
the condition holds and the key is new. -/
def setIf (s : SMap K V) (key : K) (value : V) (cond : Option V → Bool) :
    Bool × Option SMErr × SMap K V :=
  if s.stopped = true then (false, some SMErr.mapStopped, s)
  else
    let old := mapFind s.data key
    if cond old = true then
      if 0 < s.cfg.maxMapSize ∧ old.isNone = true ∧ s.cfg.maxMapSize ≤ s.itemCount then
        (false, some (SMErr.capacityExceeded s.itemCount s.cfg.maxMapSize), s)
      else
        (true, none,
          { s with data := mapInsert s.data key value,
                   itemCount := if old.isSome = true then s.itemCount else s.itemCount + 1 })
    else (false, none, s)

/-- GetOrSet: returns (value, wasAlreadyPresent, error, state); the Go zero
value returned on the error paths is modelled as none. -/
def getOrSet (s : SMap K V) (key : K) (value : V) :
    Option V × Bool × Option SMErr × SMap K V :=
  if s.stopped = true then (none, false, some SMErr.mapStopped, s)
  else
    match mapFind s.data key with
    | some existing => (some existing, true, none, s)
    | none =>
        if 0 < s.cfg.maxMapSize ∧ s.cfg.maxMapSize ≤ s.itemCount then
          (none, false, some (SMErr.capacityExceeded s.itemCount s.cfg.maxMapSize), s)
        else
          (some value, false, none,
            { s with data := mapInsert s.data key value, itemCount := s.itemCount + 1 })

/-- A batch operation: BatchSet carries a key and value, BatchDelete a key. -/
inductive BatchOp (K V : Type) where
  | bset (key : K) (value : V)
  | bdel (key : K)
deriving DecidableEq

/-- Pre-count of ApplyBatch: the number of BatchSet operations whose key is
absent from the table as it stands at the start of the batch (each occurrence
counted, deletes ignored). -/
def countNewItems (data : List (K × V)) : List (BatchOp K V) → Int
  | [] => 0
  | BatchOp.bset key _ :: rest =>
      (if (mapFind data key).isSome = true then 0 else 1) + countNewItems data rest
  | BatchOp.bdel _ :: rest => countNewItems data rest

/-- Application loop of ApplyBatch: sets insert (bumping itemCount for new
keys), deletes remove present keys (bumping deletedCount). -/
def applyAll (s : SMap K V) : List (BatchOp K V) → SMap K V
  | [] => s
  | BatchOp.bset key value :: rest =>
      let ex := (mapFind s.data key).isSome
      applyAll
        { s with data := mapInsert s.data key value,
                 itemCount := if ex = true then s.itemCount else s.itemCount + 1 } rest
  | BatchOp.bdel key :: rest =>
      applyAll
        (if (mapFind s.data key).isSome = true then
          { s with data := mapErase s.data key, deletedCount := s.deletedCount + 1 }
        else s) rest

/-- ApplyBatch: mapStopped when stopped, no-op success on an empty batch,
one up-front capacity check (itemCount + countNewItems > MaxMapSize) before
any operation is applied, then the whole batch is applied.  The trailing
asynchronous go TryShrink() of the source runs outside the critical section
and is not part of the returned state. -/
def applyBatch (s : SMap K V) (ops : List (BatchOp K V)) : Option SMErr × SMap K V :=
  if s.stopped = true then (some SMErr.mapStopped, s)
  else if ops.isEmpty = true then (none, s)
  else if 0 < s.cfg.maxMapSize ∧ s.cfg.maxMapSize < s.itemCount + countNewItems s.data ops then
    (some (SMErr.capacityExceeded s.itemCount s.cfg.maxMapSize), s)
  else (none, applyAll s ops)

/-- Iterator over a snapshot taken at construction. -/
structure Iterator (K V : Type) where
  snapshot : List (K × V)
  index : Nat
deriving DecidableEq

/-- NewIterator snapshots the map and starts at index 0. -/
def newIterator (s : SMap K V) : Iterator K V := ⟨snapshot s, 0⟩

/-- Next reports whether the index is still inside the snapshot. -/
def Iterator.next (it : Iterator K V) : Bool := decide (it.index < it.snapshot.length)

/-- Get indexes the snapshot without a bounds check and advances the index;
the out-of-range runtime fault of the unchecked access is modelled as none. -/
def Iterator.getKV (it : Iterator K V) : Option ((K × V) × Iterator K V) :=
  (it.snapshot[it.index]?).map fun item => (item, ⟨it.snapshot, it.index + 1⟩)

/-- One scheduler input: a context cancellation, or a ticker tick whose
TryShrink invocation either returns normally or raises a runtime fault. -/
inductive TickEvent where
  | cancel
  | tick (panics : Bool)
deriving DecidableEq

/-- Observable outcome of a shrinkLoop execution: how many ticks invoked
TryShrink and how many runtime faults were recorded to the metrics. -/
structure LoopOutcome where
  invocations : Nat
  panicsRecorded : Nat
deriving DecidableEq

/-- Control flow of shrinkLoop over a finite event trace: a cancellation
returns; a normal tick invokes TryShrink and loops; a tick whose TryShrink
invocation faults unwinds into the function-level deferred recover, which
records the fault to the metrics and lets shrinkLoop return. -/
def shrinkLoopRun : List TickEvent → LoopOutcome
  | [] => ⟨0, 0⟩
  | TickEvent.cancel :: _ => ⟨0, 0⟩
  | TickEvent.tick false :: rest =>
      let out := shrinkLoopRun rest
      ⟨out.invocations + 1, out.panicsRecorded⟩
  | TickEvent.tick true :: _ => ⟨1, 1⟩

/-- A foreground mutation: a Set, or a Delete performed at a given instant. -/
inductive MOp (K V : Type) where
  | mset (key : K) (value : V)
  | mdel (key : K) (now : Int)
deriving DecidableEq

/-- Sequential execution of a list of foreground mutations. -/
def run (s : SMap K V) : List (MOp K V) → SMap K V
  | [] => s
  | MOp.mset key value :: rest => run (set s key value).state rest
  | MOp.mdel key now :: rest => run (delete s key now).state rest

/-- Reference hash table subjected to the same operation sequence: plain
insert and remove on a finite map, no counters, no shrinking. -/
def refRun (m : List (K × V)) : List (MOp K V) → List (K × V)
  | [] => m
  | MOp.mset key value :: rest => refRun (mapInsert m key value) rest
  | MOp.mdel key _ :: rest => refRun (mapErase m key) rest

/-- Net new-key count of a batch, following the words of the spec: how many
more keys the table holds after the batch than before.  Stated from the
words of the spec for comparison with countNewItems of the source. -/
def refBatch (m : List (K × V)) : List (BatchOp K V) → List (K × V)
  | [] => m
  | BatchOp.bset key value :: rest => refBatch (mapInsert m key value) rest
  | BatchOp.bdel key :: rest => refBatch (mapErase m key) rest

/-- Net new-key count per the spec sentence, as the size change the batch
causes on the table. -/
def specNetNewKeys (data : List (K × V)) (ops : List (BatchOp K V)) : Int :=
  ((refBatch data ops).length : Int) - (data.length : Int)

/-- New-table capacity following the words of the spec: max(initialCapacity,
ceil(liveSize * growthFactor)).  Stated from the words of the spec for comparison
with shrinkNewSize of the source. -/
def specNewCapacity (liveSize : Int) (cfg : Config) : Int :=
  max cfg.initialCapacity ⌈(liveSize : ℚ) * cfg.capacityGrowthFactor⌉

/-- Quiescent-state invariant: the counters account for the table size and
the table keys are pairwise distinct. -/
def Inv (s : SMap K V) : Prop :=
  s.itemCount - s.deletedCount = (s.data.length : Int) ∧ (keys s.data).Nodup

/-- States whose uncapped configuration lets every Set succeed. -/
def Good (s : SMap K V) : Prop :=
  Inv s ∧ s.stopped = false ∧ s.cfg.maxMapSize = 0

theorem mapFind_isSome_iff (l : List (K × V)) (k : K) :
    (mapFind l k).isSome = true ↔ k ∈ keys l := by
  induction l with
  | nil => simp [mapFind, keys]
  | cons p rest ih =>
    obtain ⟨a, b⟩ := p
    by_cases h : a = k
    · subst h
      simp [mapFind, keys]
    · simp [mapFind, h, keys, ih, Ne.symm h]

theorem mapFind_eq_none_iff (l : List (K × V)) (k : K) :
    mapFind l k = none ↔ k ∉ keys l := by
  rw [← mapFind_isSome_iff]
  cases mapFind l k <;> simp

theorem keys_cons (a : K) (b : V) (l : List (K × V)) :
    keys ((a, b) :: l) = a :: keys l := rfl

theorem keys_mapInsert (l : List (K × V)) (k : K) (v : V) :
    keys (mapInsert l k v) =
      if (mapFind l k).isSome = true then keys l else keys l ++ [k] := by
  induction l with
  | nil => simp [mapInsert, mapFind, keys]
  | cons p rest ih =>
    obtain ⟨a, b⟩ := p
    by_cases h : a = k
    · subst h
      simp [mapInsert, mapFind, keys]
    · simp only [mapInsert, mapFind, if_neg h, keys_cons]
      rw [ih]
      by_cases hr : (mapFind rest k).isSome = true <;> simp [hr]

theorem length_mapInsert (l : List (K × V)) (k : K) (v : V) :
    (mapInsert l k v).length =
      if (mapFind l k).isSome = true then l.length else l.length + 1 := by
  by_cases h : (mapFind l k).isSome = true
  · have hk := keys_mapInsert l k v
    rw [if_pos h] at hk
    have hlen := congrArg List.length hk
    simpa [keys, h] using hlen
  · have hk := keys_mapInsert l k v
    rw [if_neg h] at hk
    have hlen := congrArg List.length hk
    simpa [keys, h] using hlen

theorem nodup_keys_mapInsert (l : List (K × V)) (k : K) (v : V)
    (h : (keys l).Nodup) : (keys (mapInsert l k v)).Nodup := by
  rw [keys_mapInsert]
  by_cases hex : (mapFind l k).isSome = true
  · simpa [hex] using h
  · have hk : k ∉ keys l := by
      rw [← mapFind_isSome_iff]
      simpa using hex
    simp [hex, List.nodup_append, h, hk]

theorem mapErase_eq_of_not_mem (l : List (K × V)) (k : K) (h : k ∉ keys l) :
    mapErase l k = l := by
  induction l with
  | nil => rfl
  | cons p rest ih =>
    obtain ⟨a, b⟩ := p
    have ha : a ≠ k := by
      intro hak
      exact h (by simp [keys, hak])
    have hr : k ∉ keys rest := by
      intro hm
      exact h (by simp [keys] at hm ⊢; exact Or.inr hm)
    simp [mapErase, ha, ih hr]

theorem keys_mapErase_sublist (l : List (K × V)) (k : K) :
    List.Sublist (keys (mapErase l k)) (keys l) := by
  induction l with
  | nil => simp [mapErase, keys]
  | cons p rest ih =>
    obtain ⟨a, b⟩ := p
    by_cases h : a = k
    · simp only [mapErase, if_pos h, keys_cons]
      exact ih.trans (List.sublist_cons_self a (keys rest))
    · simp only [mapErase, if_neg h, keys_cons]
      exact List.Sublist.cons₂ a ih

theorem nodup_keys_mapErase (l : List (K × V)) (k : K)
    (h : (keys l).Nodup) : (keys (mapErase l k)).Nodup :=
  (keys_mapErase_sublist l k).nodup h

theorem length_mapErase (l : List (K × V)) (k : K)
    (hn : (keys l).Nodup) (hm : (mapFind l k).isSome = true) :
    (mapErase l k).length + 1 = l.length := by
  induction l with
  | nil => simp [mapFind] at hm
  | cons p rest ih =>
    obtain ⟨a, b⟩ := p
    have hn2 : (keys rest).Nodup := (List.nodup_cons.mp hn).2
    have hna : a ∉ keys rest := (List.nodup_cons.mp hn).1
    by_cases h : a = k
    · subst h
      have : mapErase rest a = rest := mapErase_eq_of_not_mem rest a hna
      simp [mapErase, this]
    · have hm2 : (mapFind rest k).isSome = true := by
        simpa [mapFind, h] using hm
      simp only [mapErase, h, if_false, List.length_cons]
      have := ih hn2 hm2
      omega

theorem mapFind_mapErase_none (l : List (K × V)) (k k2 : K)
    (h : mapFind l k = none) : mapFind (mapErase l k2) k = none := by
  rw [mapFind_eq_none_iff] at h ⊢
  intro hm
  exact h ((keys_mapErase_sublist l k2).subset hm)

theorem inv_shrink (s : SMap K V) (now : Int) (h : Inv s) : Inv (shrink s now).state := by
  unfold shrink
  split_ifs
  · exact h
  · exact h
  · exact ⟨by simp, h.2⟩

theorem shrink_preserves (s : SMap K V) (now : Int) :
    (shrink s now).state.data = s.data ∧ (shrink s now).state.cfg = s.cfg ∧
      (shrink s now).state.stopped = s.stopped ∧
      (shrink s now).state.shrinking = s.shrinking := by
  unfold shrink
  split_ifs <;> exact ⟨rfl, rfl, rfl, rfl⟩

theorem tryShrink_preserves (s : SMap K V) (now : Int) :
    (tryShrink s now).state.data = s.data ∧ (tryShrink s now).state.cfg = s.cfg ∧
      (tryShrink s now).state.stopped = s.stopped ∧
      (tryShrink s now).state.shrinking = s.shrinking := by
  unfold tryShrink
  split_ifs
  · exact shrink_preserves s now
  · exact ⟨rfl, rfl, rfl, rfl⟩

theorem inv_tryShrink (s : SMap K V) (now : Int) (h : Inv s) :
    Inv (tryShrink s now).state := by
  unfold tryShrink
  split_ifs
  · exact inv_shrink s now h
  · exact h

theorem inv_set (s : SMap K V) (key : K) (value : V) (h : Inv s) :
    Inv (set s key value).state := by
  simp only [set]
  split_ifs with h1 h2 h3
  · exact h
  · exact h
  · refine ⟨?_, nodup_keys_mapInsert _ _ _ h.2⟩
    show s.itemCount - s.deletedCount = ((mapInsert s.data key value).length : Int)
    have hlen := length_mapInsert s.data key value
    rw [if_pos h3] at hlen
    rw [hlen]
    exact h.1
  · refine ⟨?_, nodup_keys_mapInsert _ _ _ h.2⟩
    show s.itemCount + 1 - s.deletedCount = ((mapInsert s.data key value).length : Int)
    have hlen := length_mapInsert s.data key value
    rw [if_neg h3] at hlen
    rw [hlen]
    have hinv := h.1
    push_cast
    omega

theorem set_preserves (s : SMap K V) (key : K) (value : V) :
    (set s key value).state.stopped = s.stopped ∧
      (set s key value).state.cfg = s.cfg := by
  simp only [set]
  split_ifs <;> exact ⟨rfl, rfl⟩

theorem set_state_of_uncapped (s : SMap K V) (key : K) (value : V) (h : Good s) :
    (set s key value).state =
      { s with data := mapInsert s.data key value,
               itemCount := if (mapFind s.data key).isSome = true then s.itemCount
                 else s.itemCount + 1 } := by
  obtain ⟨hi, hstop, hcap⟩ := h
  simp [set, hstop, hcap]

theorem delete_state_data (s : SMap K V) (key : K) (now : Int) :
    (delete s key now).state.data = mapErase s.data key := by
  simp only [delete]
  split_ifs with h1 h2
  · exact (tryShrink_preserves _ _).1
  · rfl
  · have hnone : mapFind s.data key = none := by
      cases hm : mapFind s.data key
      · rfl
      · simp [hm] at h1
    exact (mapErase_eq_of_not_mem s.data key ((mapFind_eq_none_iff _ _).mp hnone)).symm

theorem delete_preserves (s : SMap K V) (key : K) (now : Int) :
    (delete s key now).state.stopped = s.stopped ∧
      (delete s key now).state.cfg = s.cfg := by
  simp only [delete]
  split_ifs
  · exact ⟨(tryShrink_preserves _ _).2.2.1, (tryShrink_preserves _ _).2.1⟩
  · exact ⟨rfl, rfl⟩
  · exact ⟨rfl, rfl⟩

theorem inv_delete (s : SMap K V) (key : K) (now : Int) (h : Inv s) :
    Inv (delete s key now).state := by
  simp only [delete]
  split_ifs with h1 h2
  · apply inv_tryShrink
    refine ⟨?_, nodup_keys_mapErase _ _ h.2⟩
    show s.itemCount - (s.deletedCount + 1) = ((mapErase s.data key).length : Int)
    have hlen := length_mapErase s.data key h.2 h1
    have hinv := h.1
    omega
  · refine ⟨?_, nodup_keys_mapErase _ _ h.2⟩
    show s.itemCount - (s.deletedCount + 1) = ((mapErase s.data key).length : Int)
    have hlen := length_mapErase s.data key h.2 h1
    have hinv := h.1
    omega
  · exact h

theorem good_set (s : SMap K V) (key : K) (value : V) (h : Good s) :
    Good (set s key value).state :=
  ⟨inv_set _ _ _ h.1,
   by rw [(set_preserves s key value).1]; exact h.2.1,
   by rw [(set_preserves s key value).2]; exact h.2.2⟩

theorem good_delete (s : SMap K V) (key : K) (now : Int) (h : Good s) :
    Good (delete s key now).state :=
  ⟨inv_delete _ _ _ h.1,
   by rw [(delete_preserves s key now).1]; exact h.2.1,
   by rw [(delete_preserves s key now).2]; exact h.2.2⟩

theorem run_ref : ∀ (ops : List (MOp K V)) (s : SMap K V), Good s →
    (run s ops).data = refRun s.data ops ∧ Good (run s ops)
  | [], _, h => ⟨rfl, h⟩
  | MOp.mset k v :: rest, s, h => by
      simp only [run, refRun]
      have hdata : (set s k v).state.data = mapInsert s.data k v := by
        rw [set_state_of_uncapped s k v h]
      have ih := run_ref rest (set s k v).state (good_set s k v h)
      exact ⟨by rw [ih.1, hdata], ih.2⟩
  | MOp.mdel k t :: rest, s, h => by
      simp only [run, refRun]
      have hdata : (delete s k t).state.data = mapErase s.data k :=
        delete_state_data s k t
      have ih := run_ref rest (delete s k t).state (good_delete s k t h)
      exact ⟨by rw [ih.1, hdata], ih.2⟩

/-- C1: for every sequence of Set and Delete operations applied to a freshly
constructed map (with no hard cap configured, so that every Set is applied),
the table equals a reference hash table subjected to the same sequence, Len()
equals the size of that reference table, and itemCount minus deletedCount equals
the number of entries in the table at every quiescent point (quantifying the
sequence covers every intermediate point; the statement holds whether or not
any of the delete-triggered shrink attempts rebuilds, so in particular for
sequences during which no rebuild runs). -/
theorem len_matches_reference (cfg : Config) (hcap : cfg.maxMapSize = 0)
    (t0 : Int) (ops : List (MOp K V)) :
    (run (new cfg t0) ops).data = refRun ([] : List (K × V)) ops ∧
    len (run (new cfg t0) ops) = ((refRun ([] : List (K × V)) ops).length : Int) ∧
    (run (new cfg t0) ops).itemCount - (run (new cfg t0) ops).deletedCount =
      (((run (new cfg t0) ops).data.length : Int)) := by
  have hg : Good (new cfg t0 : SMap K V) :=
    ⟨⟨by simp [new], by simp [new, keys]⟩, rfl, hcap⟩
  have h := run_ref ops (new cfg t0) hg
  have hinv := h.2.1.1
  refine ⟨h.1, ?_, hinv⟩
  rw [len, hinv, h.1]
  rfl

/-- Witness for C1 at a concrete three-operation sequence; the reference size
there is 1 and so is Len() of the map. -/
theorem len_matches_reference_witness :
    len (run (new ⟨1, 1/4, 16, false, 30, 0, 3/2⟩ 0 : SMap Nat Nat)
        [MOp.mset 1 10, MOp.mset 2 20, MOp.mdel 1 5]) =
      ((refRun ([] : List (Nat × Nat))
        [MOp.mset 1 10, MOp.mset 2 20, MOp.mdel 1 5]).length : Int) ∧
    len (run (new ⟨1, 1/4, 16, false, 30, 0, 3/2⟩ 0 : SMap Nat Nat)
        [MOp.mset 1 10, MOp.mset 2 20, MOp.mdel 1 5]) = 1 :=
  ⟨(len_matches_reference ⟨1, 1/4, 16, false, 30, 0, 3/2⟩ rfl 0
      [MOp.mset 1 10, MOp.mset 2 20, MOp.mdel 1 5]).2.1,
   by decide⟩

/-- C3: shouldShrink returns false whenever the liveCount counter (itemCount,
the count of keys ever set since the last rebuild) is zero, and otherwise
returns true exactly when the waste ratio deletedCount / itemCount is at
least ShrinkRatio and the time elapsed since lastShrinkTime is at least
MinShrinkInterval. -/
theorem shouldShrink_spec (s : SMap K V) (now : Int) :
    shouldShrink s now = true ↔
      (s.itemCount ≠ 0 ∧
        s.cfg.shrinkRatio ≤ (s.deletedCount : ℚ) / (s.itemCount : ℚ) ∧
        s.cfg.minShrinkInterval ≤ now - s.lastShrinkTime) := by
  unfold shouldShrink
  split_ifs with h
  · simp [h]
  · simp [h]

/-- C4: on a quiescent map satisfying the counter invariant, shrink returns
true exactly when the single-flight flag is free and the live size is
nonzero; whenever it returns false the whole state (table, counters and
timestamp) is unchanged, and whenever it returns true the rebuilt state has
deletedCount zero and an unchanged Len(). -/
theorem shrink_rebuild_spec (s : SMap K V) (now : Int) (h : Inv s) :
    ((shrink s now).didShrink = true ↔ (s.shrinking = false ∧ len s ≠ 0)) ∧
    ((shrink s now).didShrink = false → (shrink s now).state = s) ∧
    ((shrink s now).didShrink = true →
      (shrink s now).state.deletedCount = 0 ∧
      len (shrink s now).state = len s) := by
  unfold shrink
  split_ifs with h1 h2
  · simp [h1]
  · simp [h1, h2]
  · refine ⟨by simp [h1, h2], by simp, fun _ => ⟨rfl, ?_⟩⟩
    show ((s.data.length : Int)) - 0 = len s
    have hinv := h.1
    rw [len]
    omega

/-- Witness for C4 at a one-entry quiescent state: the rebuild occurs, resets
deletedCount and keeps Len(). -/
theorem shrink_rebuild_spec_witness :
    (shrink (⟨[(1, 10)], 1, 0, 0, false, false,
        ⟨1, 1/4, 0, false, 30, 0, 3/2⟩⟩ : SMap Nat Nat) 5).state.deletedCount = 0 ∧
    len (shrink (⟨[(1, 10)], 1, 0, 0, false, false,
        ⟨1, 1/4, 0, false, 30, 0, 3/2⟩⟩ : SMap Nat Nat) 5).state =
      len (⟨[(1, 10)], 1, 0, 0, false, false,
        ⟨1, 1/4, 0, false, 30, 0, 3/2⟩⟩ : SMap Nat Nat) :=
  (shrink_rebuild_spec (⟨[(1, 10)], 1, 0, 0, false, false,
      ⟨1, 1/4, 0, false, 30, 0, 3/2⟩⟩ : SMap Nat Nat) 5
    (by exact ⟨by decide, by decide⟩)).2.2 (by decide)

theorem shrink_stop (s : SMap K V) (now : Int) :
    shrink (stop s) now =
      ⟨(shrink s now).didShrink, (shrink s now).newSize,
        stop (shrink s now).state⟩ := by
  unfold shrink
  rw [show (stop s).shrinking = s.shrinking from rfl,
    show len (stop s) = len s from rfl]
  split_ifs <;> rfl

theorem tryShrink_stop (s : SMap K V) (now : Int) :
    (tryShrink (stop s) now).state = stop (tryShrink s now).state := by
  unfold tryShrink
  rw [show shouldShrink (stop s) now = shouldShrink s now from rfl]
  split_ifs
  · rw [shrink_stop]
  · rfl

theorem delete_stop (s : SMap K V) (key : K) (now : Int) :
    delete (stop s) key now =
      ⟨(delete s key now).found, (delete s key now).attemptedShrink,
        stop (delete s key now).state⟩ := by
  obtain ⟨data, ic, dc, lst, shr, stp, cfg⟩ := s
  simp only [delete, stop]
  split_ifs with h1 h2
  · exact congrArg (DelResult.mk true true)
      (tryShrink_stop (⟨mapErase data key, ic, dc + 1, lst, shr, stp, cfg⟩ : SMap K V) now)
  · rfl
  · rfl

/-- C5: after Stop(), Set, SetIf, GetOrSet and ApplyBatch all fail with
MapStopped and leave the map unchanged, while Get, Contains, Snapshot and
Delete are not gated on the stopped flag and behave exactly as before Stop
(Delete produces the same result and the same state up to the stopped
flag). -/
theorem stop_gates_mutators (s : SMap K V) (key : K) (value : V)
    (cond : Option V → Bool) (ops : List (BatchOp K V)) (now : Int) :
    set (stop s) key value = ⟨some SMErr.mapStopped, false, stop s⟩ ∧
    setIf (stop s) key value cond = (false, some SMErr.mapStopped, stop s) ∧
    getOrSet (stop s) key value = (none, false, some SMErr.mapStopped, stop s) ∧
    applyBatch (stop s) ops = (some SMErr.mapStopped, stop s) ∧
    get (stop s) key = get s key ∧
    contains (stop s) key = contains s key ∧
    snapshot (stop s) = snapshot s ∧
    (delete (stop s) key now).found = (delete s key now).found ∧
    (delete (stop s) key now).attemptedShrink = (delete s key now).attemptedShrink ∧
    (delete (stop s) key now).state = stop (delete s key now).state := by
  refine ⟨by simp [set, stop], by simp [setIf, stop], by simp [getOrSet, stop],
    by simp [applyBatch, stop], rfl, rfl, rfl, ?_, ?_, ?_⟩
  · rw [delete_stop]
  · rw [delete_stop]
  · rw [delete_stop]

/-- C9: Iterator.Get performs an unchecked index into the snapshot: when
Next() just returned true the index is in bounds, Get returns the snapshot
entry at the current position and advances the position by one; when Next()
would return false the unchecked access is out of range and the call faults
(modelled as none). -/
theorem iterator_get_spec (it : Iterator K V) :
    (∀ h : Iterator.next it = true,
      Iterator.getKV it =
        some (it.snapshot.get ⟨it.index, by simpa [Iterator.next] using h⟩,
          ⟨it.snapshot, it.index + 1⟩)) ∧
    (Iterator.next it = false → Iterator.getKV it = none) := by
  constructor
  · intro h
    have hlt : it.index < it.snapshot.length := by simpa [Iterator.next] using h
    unfold Iterator.getKV
    rw [List.getElem?_eq_getElem hlt]
    rfl
  · intro h
    have hge : ¬ it.index < it.snapshot.length := by simpa [Iterator.next] using h
    unfold Iterator.getKV
    rw [List.getElem?_eq_none (by omega)]
    rfl

/-- Witness for C9: on a one-entry snapshot, Get at position 0 returns the
entry and advances; at position 1 (where Next() is false) it faults. -/
theorem iterator_get_spec_witness :
    Iterator.getKV (⟨[(1, 10)], 0⟩ : Iterator Nat Nat) =
      some ((1, 10), ⟨[(1, 10)], 1⟩) ∧
    Iterator.getKV (⟨[(1, 10)], 1⟩ : Iterator Nat Nat) = none :=
  ⟨(iterator_get_spec (⟨[(1, 10)], 0⟩ : Iterator Nat Nat)).1 rfl,
   (iterator_get_spec (⟨[(1, 10)], 1⟩ : Iterator Nat Nat)).2 rfl⟩

/-- C10: deleting a key that is not present returns false and changes
nothing: no table mutation, no counter change, no timestamp change and no
shrink attempt. -/
theorem delete_absent_noop (s : SMap K V) (key : K) (now : Int)
    (h : mapFind s.data key = none) :
    delete s key now = ⟨false, false, s⟩ := by
  have hns : (mapFind s.data key).isSome = false := by simp [h]
  simp [delete, hns]

/-- Witness for C10 at a concrete map that does not contain the key. -/
theorem delete_absent_noop_witness :
    delete (⟨[(1, 10)], 1, 0, 0, false, false,
        ⟨1, 1/4, 16, true, 30, 0, 3/2⟩⟩ : SMap Nat Nat) 2 5 =
      ⟨false, false, ⟨[(1, 10)], 1, 0, 0, false, false,
        ⟨1, 1/4, 16, true, 30, 0, 3/2⟩⟩⟩ :=
  delete_absent_noop _ 2 5 (by decide)

theorem delete_no_autoshrink (s : SMap K V) (key : K) (now : Int)
    (hauto : s.cfg.autoShrinkEnabled = false) :
    (delete s key now).state.itemCount = s.itemCount ∧
    (delete s key now).state.stopped = s.stopped ∧
    (delete s key now).state.cfg = s.cfg := by
  simp only [delete]
  split_ifs with h1 h2
  · rw [hauto] at h2
    exact absurd h2 (by simp)
  · exact ⟨rfl, rfl, rfl⟩
  · exact ⟨rfl, rfl, rfl⟩

/-- C2 counterexample: with hard cap 2, fill with keys 1 and 2, delete key 1,
then Set of the new key 3 still fails with CapacityExceeded (the capacity
check compares itemCount, which Delete never decrements), refuting the
assertion of the claim that the Set succeeds after one deletion. -/
theorem set_after_delete_still_fails :
    (set ((delete (⟨[(1, 10), (2, 20)], 2, 0, 0, false, false,
        ⟨1, 1/4, 16, false, 30, 2, 3/2⟩⟩ : SMap Nat Nat) 1 1).state) 3 30).err =
      some (SMErr.capacityExceeded 2 2) ∧
    (set ((delete (⟨[(1, 10), (2, 20)], 2, 0, 0, false, false,
        ⟨1, 1/4, 16, false, 30, 2, 3/2⟩⟩ : SMap Nat Nat) 1 1).state) 3 30).err ≠
      none := by
  constructor <;> decide

/-- C2 (amended): with a hard cap configured, a Set of a new key performed
when itemCount (and hence in particular when the live count) has reached the
cap fails with CapacityExceeded carrying the current itemCount and the cap
and does not insert; because Delete does not decrease itemCount, a
subsequent Set of a new key after deleting one key still fails with the same
CapacityExceeded while no rebuild has intervened (here: auto-shrink
disabled). -/
theorem set_at_cap_fails (s : SMap K V) (key key2 : K) (value : V) (t : Int)
    (hstop : s.stopped = false) (hnew : mapFind s.data key = none)
    (hpos : 0 < s.cfg.maxMapSize) (hfull : s.cfg.maxMapSize ≤ s.itemCount)
    (hauto : s.cfg.autoShrinkEnabled = false) :
    set s key value =
      ⟨some (SMErr.capacityExceeded s.itemCount s.cfg.maxMapSize), false, s⟩ ∧
    (set (delete s key2 t).state key value).err =
      some (SMErr.capacityExceeded s.itemCount s.cfg.maxMapSize) := by
  have hke : keyExists s key = false := by simp [keyExists, hnew]
  constructor
  · simp only [set]
    rw [if_neg (by simp [hstop]), if_pos ⟨hpos, hke, hfull⟩]
  · have hfields := delete_no_autoshrink s key2 t hauto
    have hdata := delete_state_data s key2 t
    have hnew2 : mapFind (delete s key2 t).state.data key = none := by
      rw [hdata]
      exact mapFind_mapErase_none _ _ _ hnew
    have hke2 : keyExists (delete s key2 t).state key = false := by
      simp [keyExists, hnew2]
    simp only [set]
    rw [if_neg (by rw [hfields.2.1, hstop]; simp),
      if_pos ⟨by rw [hfields.2.2]; exact hpos, hke2,
        by rw [hfields.2.2, hfields.1]; exact hfull⟩]
    rw [hfields.1, hfields.2.2]

/-- Witness for C2 (amended) at the concrete cap-2 scenario. -/
theorem set_at_cap_fails_witness :
    set (⟨[(1, 10), (2, 20)], 2, 0, 0, false, false,
        ⟨1, 1/4, 16, false, 30, 2, 3/2⟩⟩ : SMap Nat Nat) 3 30 =
      ⟨some (SMErr.capacityExceeded 2 2), false,
        ⟨[(1, 10), (2, 20)], 2, 0, 0, false, false,
          ⟨1, 1/4, 16, false, 30, 2, 3/2⟩⟩⟩ ∧
    (set ((delete (⟨[(1, 10), (2, 20)], 2, 0, 0, false, false,
        ⟨1, 1/4, 16, false, 30, 2, 3/2⟩⟩ : SMap Nat Nat) 1 1).state) 3 30).err =
      some (SMErr.capacityExceeded 2 2) :=
  set_at_cap_fails (⟨[(1, 10), (2, 20)], 2, 0, 0, false, false,
      ⟨1, 1/4, 16, false, 30, 2, 3/2⟩⟩ : SMap Nat Nat) 3 1 30 1
    rfl (by decide) (by decide) (by decide) rfl

/-- C6 counterexample: a trace whose first tick faults and whose second tick
is normal yields exactly one TryShrink invocation (with the fault recorded),
not the two invocations that a scheduler which kept ticking would perform;
the fault-free trace of the same length does invoke TryShrink twice. -/
theorem shrinkLoop_stops_after_panic :
    shrinkLoopRun [TickEvent.tick true, TickEvent.tick false] = ⟨1, 1⟩ ∧
    (shrinkLoopRun [TickEvent.tick true, TickEvent.tick false]).invocations ≠ 2 ∧
    shrinkLoopRun [TickEvent.tick false, TickEvent.tick false] = ⟨2, 0⟩ := by
  refine ⟨rfl, by decide, rfl⟩

/-- C6 (amended): when the TryShrink invocation of a tick raises an unexpected
runtime fault, the fault is caught by the function-level deferred recover and
recorded to the metrics collaborator, but shrinkLoop then returns: the
scheduler stops and no later tick invokes TryShrink. -/
theorem shrinkLoop_panic_recorded_then_exit (rest : List TickEvent) :
    shrinkLoopRun (TickEvent.tick true :: rest) = ⟨1, 1⟩ := rfl

/-- C7 counterexample: on a fresh map with hard cap 1, the batch that sets
the same new key twice has net new-key count 1, so the net-count
capacity check would pass and the batch would be applied; the code instead
counts the key twice and rejects the batch with CapacityExceeded. -/
theorem applyBatch_rejects_within_cap_batch :
    specNetNewKeys ((new ⟨1, 1/4, 16, false, 30, 1, 3/2⟩ 0 : SMap Nat Nat)).data
        [BatchOp.bset 1 10, BatchOp.bset 1 20] = 1 ∧
    (new ⟨1, 1/4, 16, false, 30, 1, 3/2⟩ 0 : SMap Nat Nat).itemCount +
        specNetNewKeys ((new ⟨1, 1/4, 16, false, 30, 1, 3/2⟩ 0 : SMap Nat Nat)).data
          [BatchOp.bset 1 10, BatchOp.bset 1 20] ≤
      (new ⟨1, 1/4, 16, false, 30, 1, 3/2⟩ 0 : SMap Nat Nat).cfg.maxMapSize ∧
    countNewItems ((new ⟨1, 1/4, 16, false, 30, 1, 3/2⟩ 0 : SMap Nat Nat)).data
        [BatchOp.bset 1 10, BatchOp.bset 1 20] = 2 ∧
    (applyBatch (new ⟨1, 1/4, 16, false, 30, 1, 3/2⟩ 0 : SMap Nat Nat)
        [BatchOp.bset 1 10, BatchOp.bset 1 20]).1 =
      some (SMErr.capacityExceeded 0 1) := by
  refine ⟨by decide, by decide, by decide, by decide⟩

/-- C7 (amended): ApplyBatch pre-computes the number of Set operations whose
key is absent from the pre-batch table (each occurrence counted, batch
Deletes not credited) and performs one capacity check with it before applying
anything: either the check passes and every operation in the batch is
applied, or it fails with CapacityExceeded and none is applied; an empty
batch is a no-op success. -/
theorem applyBatch_all_or_nothing (s : SMap K V) (ops : List (BatchOp K V))
    (hstop : s.stopped = false) :
    (ops = [] → applyBatch s ops = (none, s)) ∧
    (ops ≠ [] → 0 < s.cfg.maxMapSize →
      s.cfg.maxMapSize < s.itemCount + countNewItems s.data ops →
      applyBatch s ops =
        (some (SMErr.capacityExceeded s.itemCount s.cfg.maxMapSize), s)) ∧
    (ops ≠ [] → ¬(0 < s.cfg.maxMapSize ∧
        s.cfg.maxMapSize < s.itemCount + countNewItems s.data ops) →
      applyBatch s ops = (none, applyAll s ops)) := by
  refine ⟨?_, ?_, ?_⟩
  · intro h
    subst h
    simp [applyBatch, hstop]
  · intro h1 h2 h3
    cases ops with
    | nil => exact absurd rfl h1
    | cons o rest =>
      simp only [applyBatch]
      rw [if_neg (by simp [hstop]), if_neg (by simp), if_pos ⟨h2, h3⟩]
  · intro h1 h2
    cases ops with
    | nil => exact absurd rfl h1
    | cons o rest =>
      simp only [applyBatch]
      rw [if_neg (by simp [hstop]), if_neg (by simp), if_neg h2]

/-- Witness for C7 (amended): the empty batch is a no-op success, and a
batch that fits under the cap is applied in full. -/
theorem applyBatch_all_or_nothing_witness :
    applyBatch (new ⟨1, 1/4, 16, false, 30, 0, 3/2⟩ 0 : SMap Nat Nat) [] =
      (none, new ⟨1, 1/4, 16, false, 30, 0, 3/2⟩ 0) ∧
    applyBatch (new ⟨1, 1/4, 16, false, 30, 2, 3/2⟩ 0 : SMap Nat Nat)
        [BatchOp.bset 1 10, BatchOp.bdel 1] =
      (none, applyAll (new ⟨1, 1/4, 16, false, 30, 2, 3/2⟩ 0 : SMap Nat Nat)
        [BatchOp.bset 1 10, BatchOp.bdel 1]) :=
  ⟨(applyBatch_all_or_nothing (new ⟨1, 1/4, 16, false, 30, 0, 3/2⟩ 0 : SMap Nat Nat)
      [] rfl).1 rfl,
   (applyBatch_all_or_nothing (new ⟨1, 1/4, 16, false, 30, 2, 3/2⟩ 0 : SMap Nat Nat)
      [BatchOp.bset 1 10, BatchOp.bdel 1] rfl).2.2 (by decide) (by decide)⟩

/-- C8 counterexample: with InitialCapacity 0 and growth factor 3/2, a
rebuild at live size 1 allocates capacity 1 (truncation of 1.5), while the
formula of the claim, max(InitialCapacity, ceil(liveSize * factor)), gives 2. -/
theorem shrink_capacity_not_ceil :
    (shrink (⟨[(1, 10)], 1, 0, 0, false, false,
        ⟨1, 1/4, 0, false, 30, 0, 3/2⟩⟩ : SMap Nat Nat) 3).newSize = some 1 ∧
    specNewCapacity 1 ⟨1, 1/4, 0, false, 30, 0, 3/2⟩ = 2 ∧
    (1 : Int) ≠ 2 := by
  refine ⟨?_, ?_, by decide⟩
  · show some (shrinkNewSize 1 ⟨1, 1/4, 0, false, 30, 0, 3/2⟩) = some 1
    have hg : goTrunc ((1 : ℚ) * (3/2)) = 1 := by
      unfold goTrunc
      rw [if_pos (by norm_num)]
      norm_num
    unfold shrinkNewSize
    rw [show (((1 : Int) : ℚ)) = (1 : ℚ) by norm_num, hg]
    rfl
  · unfold specNewCapacity
    rw [show (((1 : Int) : ℚ) * (3/2)) = 3/2 by norm_num]
    rw [show (⌈(3/2 : ℚ)⌉ : Int) = 2 by rw [Int.ceil_eq_iff]; norm_num]
    rfl

/-- C8 (amended): for every rebuild with live size greater than zero (flag
free), the capacity of the newly allocated table equals
max(InitialCapacity, liveSize * CapacityGrowthFactor truncated toward zero),
where liveSize is Len() read at the start of the rebuild. -/
theorem shrink_capacity_formula (s : SMap K V) (now : Int)
    (h1 : s.shrinking = false) (h2 : len s ≠ 0) :
    (shrink s now).newSize =
      some (max s.cfg.initialCapacity
        (goTrunc ((len s : ℚ) * s.cfg.capacityGrowthFactor))) := by
  unfold shrink
  rw [if_neg (by simp [h1]), if_neg h2]
  simp only [shrinkNewSize]
  congr 1
  split_ifs with hlt
  · exact (max_eq_left hlt.le).symm
  · exact (max_eq_right (not_lt.mp hlt)).symm

/-- Witness for C8 (amended): at live size 1 with growth factor 3/2 the
allocated capacity is 1, matching the truncated formula. -/
theorem shrink_capacity_formula_witness :
    (shrink (⟨[(1, 10)], 1, 0, 0, false, false,
        ⟨1, 1/4, 0, false, 30, 0, 3/2⟩⟩ : SMap Nat Nat) 7).newSize = some 1 := by
  rw [shrink_capacity_formula (⟨[(1, 10)], 1, 0, 0, false, false,
      ⟨1, 1/4, 0, false, 30, 0, 3/2⟩⟩ : SMap Nat Nat) 7 rfl (by decide)]
  have hg : goTrunc (((1 : Int) : ℚ) * (3/2)) = 1 := by
    unfold goTrunc
    rw [if_pos (by norm_num)]
    norm_num
  show some (max 0 (goTrunc (((1 : Int) : ℚ)  * (3/2)))) = some 1
  rw [hg]
  rfl

end ShrinkMap
